import Mathlib

/-!
Shallow embedding of the rokuecp library (src/rokuecp.c) and proofs about it.

Strings model C character buffers: a `char buf[n]` holds at most `n - 1`
characters plus the terminator, so `strlcpy` into it keeps `n - 1` characters.
Network traffic is modelled by an oracle `net : Request → NetReply` and every
operation additionally returns the list of requests it issued, so "no request
was sent" is the statement that this list is empty.
-/

/-- Model of strlcpy: copy `src` into a buffer of `size` bytes, keeping at most
`size - 1` characters and always terminating. -/
def strlcpy (src : String) (size : Nat) : String :=
  ⟨src.data.take (size - 1)⟩

/-- Characters skipped by strtoul/strtol before the number. -/
def isSpaceChar (c : Char) : Bool :=
  c = ' ' || c = '\t' || c = '\n' || c = '\r' || c.toNat = 11 || c.toNat = 12

/-- Value of a digit run, most significant digit first. -/
def digitsVal (cs : List Char) : Nat :=
  cs.foldl (fun a c => 10 * a + (c.toNat - 48)) 0

/-- Model of strtoul(s, NULL, 10) on a 64-bit unsigned long: skip leading
whitespace, read an optional sign and a digit run, clamp to ULONG_MAX, and
negate modulo 2^64 when the sign was minus. -/
def strtoul10 (s : String) : Nat :=
  let cs := s.data.dropWhile isSpaceChar
  let p : Bool × List Char :=
    match cs with
    | '-' :: r => (true, r)
    | '+' :: r => (false, r)
    | _ => (false, cs)
  let v := min (digitsVal (p.2.takeWhile Char.isDigit)) (2 ^ 64 - 1)
  if p.1 then (2 ^ 64 - v) % 2 ^ 64 else v

/-- Model of strtol(s, NULL, 10) on a 64-bit signed long. -/
def strtol10 (s : String) : Int :=
  let cs := s.data.dropWhile isSpaceChar
  let p : Bool × List Char :=
    match cs with
    | '-' :: r => (true, r)
    | '+' :: r => (false, r)
    | _ => (false, cs)
  let v : Int := (digitsVal (p.2.takeWhile Char.isDigit) : Int)
  let v := if p.1 then -v else v
  max (min v (2 ^ 63 - 1)) (-(2 ^ 63))

/-- Conversion of an integer to int8_t: reduce modulo 256 into [-128, 127]. -/
def int8cast (n : Int) : Int :=
  let m := n % 256
  if 128 ≤ m then m - 256 else m

/-- Bytes through which g_uri_escape_string passes unescaped when no extra
allowed characters are given: ASCII alphanumerics and `-`, `.`, `_`, `~`. -/
def isUnreservedByte (b : Nat) : Bool :=
  (48 ≤ b && b ≤ 57) || (65 ≤ b && b ≤ 90) || (97 ≤ b && b ≤ 122) ||
    b = 45 || b = 46 || b = 95 || b = 126

/-- Uppercase hexadecimal digit. -/
def hexDigitU (n : Nat) : Char :=
  if n < 10 then Char.ofNat (48 + n) else Char.ofNat (55 + n)

/-- Percent-escape a single byte unless it is unreserved. -/
def escapeByte (b : Nat) : List Char :=
  if isUnreservedByte b then [Char.ofNat b]
  else ['%', hexDigitU (b / 16), hexDigitU (b % 16)]

/-- UTF-8 bytes of a character. -/
def utf8Bytes (c : Char) : List Nat :=
  let n := c.toNat
  if n < 128 then [n]
  else if n < 2048 then [192 + n / 64, 128 + n % 64]
  else if n < 65536 then [224 + n / 4096, 128 + n / 64 % 64, 128 + n % 64]
  else [240 + n / 262144, 128 + n / 4096 % 64, 128 + n / 64 % 64, 128 + n % 64]

/-- Model of g_uri_escape_string(bytes, NULL, allow_utf8 = FALSE), applied to a
raw byte sequence: every byte that is not unreserved is percent-escaped. -/
def uriEscapeBytes (bytes : List Nat) : String :=
  ⟨bytes.foldr (fun b acc => escapeByte b ++ acc) []⟩

/-- Model of g_uri_escape_string(s, NULL, allow_utf8 = TRUE) on a text string:
non-ASCII characters pass through, every other non-unreserved byte is
percent-escaped. -/
def uriEscape (s : String) : String :=
  ⟨s.data.foldr
    (fun c acc =>
      (if 128 ≤ c.toNat then [c] else escapeByte c.toNat) ++ acc) []⟩

/-- A child node of an XML element, reduced to the data fillFromXML reads from
it: its name and the result of xmlNodeGetContent on it (NULL modelled as
none). -/
structure XField where
  name : String
  content : Option String
deriving DecidableEq

/-- An XML element one level below the document root (a channel or app entry):
node type flag, name, own content, attributes and child nodes. -/
structure XmlNodeL where
  isElement : Bool
  name : String
  content : Option String
  attrs : List (String × String)
  fields : List XField
deriving DecidableEq

/-- The root element of a parsed document, as the list of its child nodes. -/
structure XmlRoot where
  children : List XmlNodeL
deriving DecidableEq

/-- View of the root's children as (name, content) pairs, the way fillFromXML
iterates them. -/
def XmlRoot.fieldsOf (r : XmlRoot) : List XField :=
  r.children.map (fun n => ⟨n.name, n.content⟩)

/-- One entry of the xmlElementToStringMap array: the XML name looked for and
the byte size of the destination buffer. -/
structure MapEntry where
  elementName : String
  destSize : Nat
deriving DecidableEq

/-- Default map entry used with getD at in-range indices only. -/
def mapDflt : MapEntry := ⟨"", 1⟩

/-- Inner loop of fillFromXML in element-content mode: walk the map and the
destinations in lockstep, fill the first entry whose name matches the node
(then break), leave the destination alone when xmlNodeGetContent was NULL. -/
def fillNode (node : XField) : List MapEntry → List String → List String
  | e :: map, d :: ds =>
    if e.elementName = node.name then
      (match node.content with
       | some c => strlcpy c e.destSize
       | none => d) :: ds
    else
      d :: fillNode node map ds
  | _, ds => ds

/-- First attribute with the given name, as xmlNodeGetAttrValue finds it. -/
def lookupAttr (attrs : List (String × String)) (nm : String) : Option String :=
  (attrs.find? (fun a => a.1 = nm)).map (fun a => a.2)

/-- Attribute mode of fillFromXML: every map entry whose attribute is present
is filled from it independently. -/
def fillAttrs (attrs : List (String × String)) :
    List MapEntry → List String → List String
  | e :: map, d :: ds =>
    (match lookupAttr attrs e.elementName with
     | some v => strlcpy v e.destSize
     | none => d) :: fillAttrs attrs map ds
  | _, ds => ds

/-- Model of fillFromXML: reset every destination to the empty string, then in
attribute mode copy each present attribute, and in content mode process every
child node in order, each updating the first matching map entry. -/
def fillFromXML (attrMode : Bool) (attrs : List (String × String))
    (fields : List XField) (map : List MapEntry) (dests : List String) :
    List String :=
  let ds0 := dests.map (fun _ => "")
  if attrMode then fillAttrs attrs map ds0
  else fields.foldl (fun ds n => fillNode n map ds) ds0

/-- Fold describing which text ends up in the destination mapped to `nm` after
the child-node loop: the content of the last matching child that had content. -/
def lastFillStep (nm : String) (acc : Option String) (n : XField) :
    Option String :=
  if n.name = nm then
    match n.content with
    | some c => some c
    | none => acc
  else acc

/-- Content of the last child named `nm` whose content was present. -/
def lastFill (fields : List XField) (nm : String) : Option String :=
  fields.foldl (lastFillStep nm) none

/-- Information about a Roku Device (struct RokuDevice). -/
structure RokuDevice where
  name : String
  location : String
  url : String
  model : String
  serial : String
  isTV : Bool
  isOn : Bool
  isLimited : Bool
  developerMode : Bool
  hasSearchSupport : Bool
  hasHeadphoneSupport : Bool
  headphonesConnected : Bool
  resolution : String
  macAddress : String
  softwareVersion : String
deriving DecidableEq

/-- Information about a TV channel (struct RokuTVChannel). -/
structure RokuTVChannel where
  id : String
  name : String
  type : String
  network : String
  physicalChannel : Nat
  frequency : Nat
deriving DecidableEq

/-- Information about a TV program (struct RokuTVProgram). -/
structure RokuTVProgram where
  title : String
  description : String
  rating : String
  hasCC : Bool
deriving DecidableEq

/-- Extended information about a TV channel (struct RokuExtTVChannel). -/
structure RokuExtTVChannel where
  channel : RokuTVChannel
  isActive : Bool
  program : RokuTVProgram
  signalReceived : Bool
  resolution : String
  signalQuality : Nat
  signalStrength : Int
deriving DecidableEq

/-- Information about a Roku app (struct RokuApp). -/
structure RokuApp where
  id : String
  name : String
  type : String
  version : String
deriving DecidableEq

/-- A Roku app icon (struct RokuAppIcon): raw bytes and their count. -/
structure RokuAppIcon where
  data : List Nat
  size : Nat
deriving DecidableEq

/-- Roku search filter (the anonymous enum in RokuSearchParams). -/
inductive RokuSearchType where
  | MOVIE | SHOW | PERSON | APP | GAME | NONE
deriving DecidableEq

/-- Parameters of a Roku search (struct RokuSearchParams); providerIDs models
the first eight id strings of the array, which are the ones the code reads. -/
structure RokuSearchParams where
  type : RokuSearchType
  includeUnavailable : Bool
  tmsID : String
  season : Nat
  autoSelect : Bool
  autoLaunch : Bool
  providerIDs : List String
deriving DecidableEq

/-- An HTTP request the library hands to libsoup. -/
structure Request where
  method : String
  url : String
deriving DecidableEq

/-- What the transport and the XML parser produce for one request: the
sendRequest code (0 for HTTP 200, otherwise the soup error or status code),
the parse of the body (none when xmlReadDoc fails, some none when the document
has no root element) and the raw body bytes (used by the icon query). -/
structure NetReply where
  code : Int
  doc : Option (Option XmlRoot)
  bytes : List Nat

/-- The network oracle: what each request would get back. -/
def Net : Type := Request → NetReply

/-- The map getRokuDevice passes to fillFromXML, in source order; the last
seven entries are the tmpPowerMode .. tmpHeadphonesConnected staging buffers. -/
def deviceInfoMap : List MapEntry :=
  [⟨"user-device-name", 121⟩, ⟨"user-device-location", 61⟩,
   ⟨"friendly-model-name", 31⟩, ⟨"serial-number", 14⟩, ⟨"ui-resolution", 8⟩,
   ⟨"wifi-mac", 18⟩, ⟨"software-version", 10⟩, ⟨"power-mode", 8⟩,
   ⟨"is-tv", 5⟩, ⟨"ecp-setting-mode", 8⟩, ⟨"developer-enabled", 5⟩,
   ⟨"search-enabled", 5⟩, ⟨"supports-private-listening", 5⟩,
   ⟨"headphones-connected", 5⟩]

/-- Model of getRokuDevice: write the (truncated) url into the record, issue
the device-info GET, map failures to their codes, and on success project the
document onto the record. Mirrors src/rokuecp.c lines 187-254, including the
comparison of the is-tv staging buffer (index 8) against "limited" on line 245
while the ecp-setting-mode staging buffer (index 9) is never read. -/
def getRokuDevice (net : Net) (url : String) (d0 : RokuDevice) :
    Int × List Request × RokuDevice :=
  let d := { d0 with url := strlcpy url 30 }
  let req : Request := ⟨"GET", url ++ "/query/device-info"⟩
  let reply := net req
  if reply.code = 401 then (-3, [req], d)
  else if reply.code ≠ 0 then (reply.code, [req], d)
  else
    match reply.doc with
    | none => (-2, [req], d)
    | some none => (-3, [req], d)
    | some (some root) =>
      let r := fillFromXML false [] root.fieldsOf deviceInfoMap
        [d.name, d.location, d.model, d.serial, d.resolution, d.macAddress,
         d.softwareVersion, "", "", "", "", "", "", ""]
      (0, [req],
       { d with
         name := r.getD 0 "", location := r.getD 1 "", model := r.getD 2 "",
         serial := r.getD 3 "", resolution := r.getD 4 "",
         macAddress := r.getD 5 "", softwareVersion := r.getD 6 "",
         isOn := r.getD 7 "" = "PowerOn",
         isTV := r.getD 8 "" = "true",
         isLimited := r.getD 8 "" = "limited",
         developerMode := r.getD 10 "" = "true",
         hasSearchSupport := r.getD 11 "" = "true",
         hasHeadphoneSupport := r.getD 12 "" = "true",
         headphonesConnected := r.getD 13 "" = "true" })

/-- The fixed list of TV-only key names in rokuSendKey. -/
def tvOnlyKeys : List String :=
  ["VolumeUp", "VolumeDown", "VolumeMute", "PowerOff", "ChannelUp",
   "ChannelDown", "InputTuner", "InputHDMI1", "InputHDMI2", "InputHDMI3",
   "InputHDMI4", "InputAV1"]

/-- Model of rokuSendKey: reject TV-only keys on non-TV devices, reject
limited devices, otherwise POST /keypress/key and map 401 to -3. -/
def rokuSendKey (net : Net) (device : RokuDevice) (key : String) :
    Int × List Request :=
  if device.isTV = false ∧ key ∈ tvOnlyKeys then (-1, [])
  else if device.isLimited then (-2, [])
  else
    let req : Request := ⟨"POST", device.url ++ "/keypress/" ++ key⟩
    let r := (net req).code
    (if r = 401 then -3 else r, [req])

/-- The map each channel entry is decoded with, in source order; the last two
entries are the tmpPhysicalChannel and tmpFrequency staging buffers. -/
def channelMap : List MapEntry :=
  [⟨"channel-id", 8⟩, ⟨"broadcast-network-label", 25⟩, ⟨"name", 8⟩,
   ⟨"type", 14⟩, ⟨"physical-channel", 3⟩, ⟨"physical-frequency", 7⟩]

/-- Decode of one channel element inside the getRokuTVChannels loop: fill the
string fields and the two numeric staging buffers, then parse physical channel
(stored into a uint8_t, so reduced modulo 256) and frequency (strtoul times
1000UL, computed in unsigned long arithmetic, so reduced modulo 2^64). -/
def decodeChannelNode (n : XmlNodeL) (c0 : RokuTVChannel) : RokuTVChannel :=
  let r := fillFromXML false n.attrs n.fields channelMap
    [c0.id, c0.network, c0.name, c0.type, "", ""]
  { id := r.getD 0 "", network := r.getD 1 "", name := r.getD 2 "",
    type := r.getD 3 "",
    physicalChannel :=
      if r.getD 4 "" ≠ "" then strtoul10 (r.getD 4 "") % 256 else 0,
    frequency :=
      if r.getD 5 "" ≠ "" then strtoul10 (r.getD 5 "") * 1000 % 2 ^ 64
      else 0 }

/-- Channel-list loop of getRokuTVChannels: walk the root's children while
fewer than maxChannels were found, skipping non-element nodes. -/
def channelsLoop (maxC : Int) :
    List XmlNodeL → Nat → List RokuTVChannel → Nat × List RokuTVChannel
  | [], found, lst => (found, lst)
  | n :: rest, found, lst =>
    if (found : Int) < maxC then
      if n.isElement then
        channelsLoop maxC rest (found + 1)
          (lst.set found
            (decodeChannelNode n (lst.getD found ⟨"", "", "", "", 0, 0⟩)))
      else channelsLoop maxC rest found lst
    else (found, lst)

/-- Model of getRokuTVChannels (src/rokuecp.c lines 283-354). -/
def getRokuTVChannels (net : Net) (device : RokuDevice) (maxChannels : Int)
    (list0 : List RokuTVChannel) : Int × List Request × List RokuTVChannel :=
  if device.isTV = false then (-4, [], list0)
  else if device.isLimited then (-5, [], list0)
  else
    let req : Request := ⟨"GET", device.url ++ "/query/tv-channels"⟩
    let reply := net req
    if reply.code = 401 then (-6, [req], list0)
    else if reply.code ≠ 0 then (-1, [req], list0)
    else
      match reply.doc with
      | none => (-2, [req], list0)
      | some none => (-3, [req], list0)
      | some (some root) =>
        let p := channelsLoop maxChannels root.children 0 list0
        ((p.1 : Int), [req], p.2)

/-- The map the active-channel query decodes the base channel with; index 6 is
the tmpActive staging buffer. -/
def activeChannelMap : List MapEntry :=
  [⟨"channel-id", 8⟩, ⟨"broadcast-network-label", 25⟩, ⟨"name", 8⟩,
   ⟨"type", 14⟩, ⟨"physical-channel", 3⟩, ⟨"physical-frequency", 7⟩,
   ⟨"active-input", 6⟩]

/-- The map used for the program and signal fields when the channel is active;
indices 3, 5, 6 and 7 are staging buffers. -/
def ifActiveMap : List MapEntry :=
  [⟨"program-title", 112⟩, ⟨"program-description", 256⟩,
   ⟨"program-ratings", 15⟩, ⟨"program-has-cc", 5⟩, ⟨"signal-mode", 8⟩,
   ⟨"signal-state", 5⟩, ⟨"signal-quality", 4⟩, ⟨"signal-strength", 5⟩]

/-- Fill phase of getActiveRokuTVChannel (src/rokuecp.c lines 399-463): decode
the base channel and the active flag; when active, decode the program and
signal fields, otherwise reset every one of them to its zero value. -/
def activeChannelFill (chEl : XmlNodeL) (ch0 : RokuExtTVChannel) :
    RokuExtTVChannel :=
  let r := fillFromXML false chEl.attrs chEl.fields activeChannelMap
    [ch0.channel.id, ch0.channel.network, ch0.channel.name, ch0.channel.type,
     "", "", ""]
  let base : RokuTVChannel :=
    { id := r.getD 0 "", network := r.getD 1 "", name := r.getD 2 "",
      type := r.getD 3 "",
      physicalChannel :=
        if r.getD 4 "" ≠ "" then strtoul10 (r.getD 4 "") % 256 else 0,
      frequency :=
        if r.getD 5 "" ≠ "" then strtoul10 (r.getD 5 "") * 1000 % 2 ^ 64
        else 0 }
  if r.getD 6 "" = "true" then
    let r2 := fillFromXML false chEl.attrs chEl.fields ifActiveMap
      [ch0.program.title, ch0.program.description, ch0.program.rating, "",
       ch0.resolution, "", "", ""]
    { channel := base, isActive := true,
      program := ⟨r2.getD 0 "", r2.getD 1 "", r2.getD 2 "",
        r2.getD 3 "" = "true"⟩,
      signalReceived := r2.getD 5 "" ≠ "none",
      resolution := r2.getD 4 "",
      signalQuality :=
        if r2.getD 6 "" ≠ "" then strtoul10 (r2.getD 6 "") % 256 else 0,
      signalStrength :=
        if r2.getD 7 "" ≠ "" then int8cast (strtol10 (r2.getD 7 "")) else 0 }
  else
    { channel := base, isActive := false, program := ⟨"", "", "", false⟩,
      signalReceived := false, resolution := "", signalQuality := 0,
      signalStrength := 0 }

/-- Model of getActiveRokuTVChannel (src/rokuecp.c lines 356-468). When the
first child of the root is not an element node the C code moves to the next
sibling once; if that leaves no node at all the C code would dereference a
null pointer (undefined behaviour), modelled here as the empty-channel error. -/
def getActiveRokuTVChannel (net : Net) (device : RokuDevice)
    (ch0 : RokuExtTVChannel) : Int × List Request × RokuExtTVChannel :=
  if device.isTV = false then (-3, [], ch0)
  else if device.isLimited then (-4, [], ch0)
  else
    let req : Request := ⟨"GET", device.url ++ "/query/tv-active-channel"⟩
    let reply := net req
    if reply.code = 401 then (-5, [req], ch0)
    else if reply.code ≠ 0 then (reply.code, [req], ch0)
    else
      match reply.doc with
      | none => (-1, [req], ch0)
      | some none => (-2, [req], ch0)
      | some (some root) =>
        match root.children with
        | [] => (-2, [req], ch0)
        | n0 :: rest =>
          match (if n0.isElement then some n0 else rest.head?) with
          | none => (-2, [req], ch0)
          | some chEl => (0, [req], activeChannelFill chEl ch0)

/-- The attribute map each app entry is decoded with. -/
def appsMap : List MapEntry :=
  [⟨"id", 14⟩, ⟨"type", 5⟩, ⟨"version", 22⟩]

/-- Decode of one app element inside the getRokuApps loop: the app name comes
from the node's own content, the rest from its attributes. -/
def decodeAppNode (n : XmlNodeL) (a0 : RokuApp) : RokuApp :=
  let nm := match n.content with
    | some c => strlcpy c 31
    | none => ""
  let r := fillFromXML true n.attrs n.fields appsMap [a0.id, a0.type, a0.version]
  { id := r.getD 0 "", name := nm, type := r.getD 1 "", version := r.getD 2 "" }

/-- App-list loop of getRokuApps. -/
def appsLoop (maxA : Int) :
    List XmlNodeL → Nat → List RokuApp → Nat × List RokuApp
  | [], found, lst => (found, lst)
  | n :: rest, found, lst =>
    if (found : Int) < maxA then
      if n.isElement then
        appsLoop maxA rest (found + 1)
          (lst.set found (decodeAppNode n (lst.getD found ⟨"", "", "", ""⟩)))
      else appsLoop maxA rest found lst
    else (found, lst)

/-- Model of getRokuApps (src/rokuecp.c lines 487-548). -/
def getRokuApps (net : Net) (device : RokuDevice) (maxApps : Int)
    (list0 : List RokuApp) : Int × List Request × List RokuApp :=
  if device.isLimited then (-4, [], list0)
  else
    let req : Request := ⟨"GET", device.url ++ "/query/apps"⟩
    let reply := net req
    if reply.code = 401 then (-5, [req], list0)
    else if reply.code ≠ 0 then (-1, [req], list0)
    else
      match reply.doc with
      | none => (-2, [req], list0)
      | some none => (-3, [req], list0)
      | some (some root) =>
        let p := appsLoop maxApps root.children 0 list0
        ((p.1 : Int), [req], p.2)

/-- Model of getRokuAppIcon (src/rokuecp.c lines 676-697): reject limited
devices before any request, otherwise fetch the icon bytes and keep them
whatever the status was, mapping 401 to -2. -/
def getRokuAppIcon (net : Net) (device : RokuDevice) (app : RokuApp)
    (icon0 : RokuAppIcon) : Int × List Request × RokuAppIcon :=
  if device.isLimited then (-1, [], icon0)
  else
    let req : Request := ⟨"GET", device.url ++ "/query/icon/" ++ app.id⟩
    let reply := net req
    let icon : RokuAppIcon := ⟨reply.bytes, reply.bytes.length⟩
    (if reply.code = 401 then -2 else reply.code, [req], icon)

/-- The name=value parameter string sendCustomRokuInput appends to /input?,
with both sides escaped and an ampersand between consecutive pairs. -/
def inputPairs (params : Nat) (names values : List String) : String :=
  (List.range params).foldl
    (fun acc i =>
      acc ++ uriEscape (names.getD i "") ++ "=" ++ uriEscape (values.getD i "")
        ++ (if i + 1 < params then "&" else "")) ""

/-- Model of sendCustomRokuInput (src/rokuecp.c lines 699-724). -/
def sendCustomRokuInput (net : Net) (device : RokuDevice) (params : Nat)
    (names values : List String) : Int × List Request :=
  if device.isLimited then (-1, [])
  else
    let req : Request :=
      ⟨"POST", device.url ++ "/input?" ++ inputPairs params names values⟩
    let r := (net req).code
    (if r = 401 then -2 else r, [req])

/-- The comma-separated tail of the provider-id list: ids 1 through 7 that are
non-empty, each preceded by a comma. -/
def providerTail (ids : List String) : String :=
  (List.range 7).foldl
    (fun acc i =>
      let v := ids.getD (i + 1) ""
      if v ≠ "" then acc ++ "," ++ v else acc) ""

/-- The string appended for the search filter type. -/
def searchTypeString : RokuSearchType → String
  | .MOVIE => "&type=movie"
  | .SHOW => "&type=tv-show"
  | .PERSON => "&type=person"
  | .APP => "&type=channel"
  | .GAME => "&type=game"
  | .NONE => ""

/-- Model of rokuSearch (src/rokuecp.c lines 726-796): reject devices without
search support or in limited mode, reject an empty keyword before sending
anything, otherwise build the /search/browse query in source order and POST
it, mapping 401 to -1. -/
def rokuSearch (net : Net) (device : RokuDevice) (keyword : String)
    (p : RokuSearchParams) : Int × List Request :=
  if device.hasSearchSupport = false ∨ device.isLimited then (-1, [])
  else if keyword = "" then (-2, [])
  else
    let url := device.url ++ "/search/browse?keyword=" ++ uriEscape keyword
      ++ searchTypeString p.type
      ++ (if p.includeUnavailable then "&show-unavailable=true" else "")
      ++ (if p.autoLaunch then "&launch=true" else "")
      ++ (if p.autoSelect then "&match-any=true" else "")
      ++ (if p.season ≠ 0 then "&season=" ++ toString p.season else "")
      ++ (if p.tmsID ≠ "" then "&tmsid=" ++ p.tmsID else "")
      ++ (if p.providerIDs.getD 0 "" ≠ "" then
            "&provider-id=" ++ p.providerIDs.getD 0 ""
              ++ providerTail p.providerIDs
          else "")
    let req : Request := ⟨"POST", url⟩
    let r := (net req).code
    (if r = 401 then -1 else r, [req])

/-- Character loop of rokuTypeString: encode each character with the locale
conversion (wctomb), skip characters it cannot represent, send the key
Lit_(escaped bytes), stop with -2 when a keypress reports 401 (code -3), and
otherwise carry the last keypress result to the end. -/
def typeLoop (net : Net) (encode : Char → Option (List Nat))
    (device : RokuDevice) : List Char → Int → Int × List Request
  | [], ec => (ec, [])
  | c :: rest, ec =>
    match encode c with
    | none => typeLoop net encode device rest ec
    | some bytes =>
      let key := "Lit_" ++ uriEscapeBytes bytes
      let p := rokuSendKey net device key
      if p.1 = -3 then (-2, p.2)
      else
        let q := typeLoop net encode device rest p.1
        (q.1, p.2 ++ q.2)

/-- Model of rokuTypeString (src/rokuecp.c lines 798-831); `encode` stands for
wctomb in the process locale. -/
def rokuTypeString (net : Net) (encode : Char → Option (List Nat))
    (device : RokuDevice) (s : String) : Int × List Request :=
  if device.isLimited then (-1, [])
  else typeLoop net encode device s.data 0

/-- The wctomb of an ASCII-only locale (the standard C locale): ASCII
characters map to their single byte, everything else is unrepresentable. -/
def asciiEncode (c : Char) : Option (List Nat) :=
  if c.toNat ≤ 127 then some [c.toNat] else none

/-- The SSDP resource-available callback (src/rokuecp.c lines 65-74) applied to
the service locations that arrive before the 5-second timeout: when the list
is about to become full the main loop is asked to quit (so later arrivals are
not processed), and each processed location is copied into the next slot.
Slots beyond the last written one are not touched. -/
def findLoop (maxDevices urlSize : Nat) :
    List String → Nat → List String → Nat × List String
  | [], found, slots => (found, slots)
  | loc :: rest, found, slots =>
    let quit := maxDevices - 1 ≤ found
    let slots2 := slots.set found (strlcpy loc urlSize)
    if quit then (found + 1, slots2)
    else findLoop maxDevices urlSize rest (found + 1) slots2

/-- Model of findRokuDevices (src/rokuecp.c lines 158-185): a session-setup
failure is returned negated; otherwise the callback runs over the locations
that arrive within the window and the count is returned. -/
def findRokuDevices (sessionErr : Option Int) (arrivals : List String)
    (maxDevices urlSize : Nat) (slots0 : List String) : Int × List String :=
  match sessionErr with
  | some e => (-e, slots0)
  | none =>
    let p := findLoop maxDevices urlSize arrivals 0 slots0
    ((p.1 : Int), p.2)

theorem fillNode_nil (node : XField) (ds : List String) :
    fillNode node [] ds = ds := by
  cases ds <;> rfl

theorem fillNode_cons_nil (node : XField) (e : MapEntry) (map : List MapEntry) :
    fillNode node (e :: map) [] = [] := rfl

theorem fillNode_cons_cons (node : XField) (e : MapEntry) (map : List MapEntry)
    (d : String) (ds : List String) :
    fillNode node (e :: map) (d :: ds) =
      if e.elementName = node.name then
        (match node.content with
         | some c => strlcpy c e.destSize
         | none => d) :: ds
      else d :: fillNode node map ds := rfl

theorem fillNode_length (node : XField) :
    ∀ (map : List MapEntry) (ds : List String),
      (fillNode node map ds).length = ds.length := by
  intro map
  induction map with
  | nil => intro ds; rw [fillNode_nil]
  | cons e map ih =>
    intro ds
    cases ds with
    | nil => rw [fillNode_cons_nil]
    | cons d ds =>
      rw [fillNode_cons_cons]
      by_cases h : e.elementName = node.name
      · simp only [if_pos h]
        cases node.content <;> simp
      · simp only [if_neg h, List.length_cons, ih]

theorem fillNode_getD_ge (node : XField) :
    ∀ (map : List MapEntry) (ds : List String) (i : Nat), map.length ≤ i →
      (fillNode node map ds).getD i "" = ds.getD i "" := by
  intro map
  induction map with
  | nil => intro ds i _; rw [fillNode_nil]
  | cons e map ih =>
    intro ds i hi
    cases ds with
    | nil => rw [fillNode_cons_nil]
    | cons d ds =>
      rw [fillNode_cons_cons]
      cases i with
      | zero => simp at hi
      | succ i =>
        by_cases h : e.elementName = node.name
        · simp only [if_pos h]
          cases node.content <;> simp
        · simp only [if_neg h, List.getD_cons_succ]
          exact ih ds i (by simpa using Nat.le_of_succ_le_succ hi)

theorem fillNode_getD_ne (node : XField) :
    ∀ (map : List MapEntry) (ds : List String) (i : Nat),
      (map.getD i mapDflt).elementName ≠ node.name → i < map.length →
      (fillNode node map ds).getD i "" = ds.getD i "" := by
  intro map
  induction map with
  | nil => intro ds i _ hi; simp at hi
  | cons e map ih =>
    intro ds i hne hi
    cases ds with
    | nil => rw [fillNode_cons_nil]
    | cons d ds =>
      rw [fillNode_cons_cons]
      cases i with
      | zero =>
        have he : e.elementName ≠ node.name := by simpa using hne
        simp only [if_neg he, List.getD_cons_zero]
      | succ i =>
        by_cases h : e.elementName = node.name
        · simp only [if_pos h]
          cases node.content <;> simp [List.getD_cons_succ]
        · simp only [if_neg h, List.getD_cons_succ]
          exact ih ds i (by simpa using hne) (by simpa using Nat.lt_of_succ_lt_succ hi)

theorem getD_mem_of_lt {l : List MapEntry} {i : Nat} (hi : i < l.length) :
    l.getD i mapDflt ∈ l := by
  rw [List.getD_eq_getElem l mapDflt hi]
  exact List.getElem_mem hi

theorem fillNode_getD_eq (node : XField) :
    ∀ (map : List MapEntry) (ds : List String) (i : Nat),
      (map.map MapEntry.elementName).Nodup →
      (map.getD i mapDflt).elementName = node.name → i < map.length →
      ds.length = map.length →
      (fillNode node map ds).getD i "" =
        match node.content with
        | some c => strlcpy c (map.getD i mapDflt).destSize
        | none => ds.getD i "" := by
  intro map
  induction map with
  | nil => intro ds i _ _ hi _; simp at hi
  | cons e map ih =>
    intro ds i hnd heq hi hlen
    cases ds with
    | nil => simp at hlen
    | cons d ds =>
      rw [fillNode_cons_cons]
      cases i with
      | zero =>
        have he : e.elementName = node.name := by simpa using heq
        simp only [if_pos he]
        cases node.content <;> simp
      | succ i =>
        have hi2 : i < map.length := by simpa using Nat.lt_of_succ_lt_succ hi
        have heq2 : (map.getD i mapDflt).elementName = node.name := by
          simpa using heq
        have he : e.elementName ≠ node.name := by
          intro h
          have hmem : (map.getD i mapDflt).elementName ∈
              map.map MapEntry.elementName :=
            List.mem_map_of_mem _ (getD_mem_of_lt hi2)
          rw [heq2, ← h] at hmem
          exact (List.nodup_cons.mp (by simpa using hnd)).1 hmem
        simp only [if_neg he, List.getD_cons_succ]
        have := ih ds i (List.nodup_cons.mp (by simpa using hnd)).2 heq2 hi2
          (by simpa using hlen)
        simpa using this

theorem foldl_lastFillStep_init (nm : String) :
    ∀ (fs : List XField) (a : Option String),
      fs.foldl (lastFillStep nm) a =
        match fs.foldl (lastFillStep nm) none with
        | some c => some c
        | none => a := by
  intro fs
  induction fs with
  | nil => intro a; rfl
  | cons n fs ih =>
    intro a
    simp only [List.foldl_cons]
    rw [ih (lastFillStep nm a n), ih (lastFillStep nm none n)]
    cases hF : fs.foldl (lastFillStep nm) none with
    | some c => rfl
    | none =>
      unfold lastFillStep
      by_cases h : n.name = nm
      · simp only [if_pos h]
        cases hc : n.content <;> rfl
      · simp only [if_neg h]

theorem foldl_fillNode_length :
    ∀ (fs : List XField) (map : List MapEntry) (ds : List String),
      (fs.foldl (fun ds n => fillNode n map ds) ds).length = ds.length := by
  intro fs
  induction fs with
  | nil => intro map ds; rfl
  | cons n fs ih =>
    intro map ds
    simp only [List.foldl_cons]
    rw [ih, fillNode_length]

theorem foldl_fillNode_getD (map : List MapEntry)
    (hnd : (map.map MapEntry.elementName).Nodup) :
    ∀ (fs : List XField) (ds : List String) (i : Nat), i < map.length →
      ds.length = map.length →
      (fs.foldl (fun ds n => fillNode n map ds) ds).getD i "" =
        match lastFill fs (map.getD i mapDflt).elementName with
        | some c => strlcpy c (map.getD i mapDflt).destSize
        | none => ds.getD i "" := by
  intro fs
  induction fs with
  | nil => intro ds i _ _; rfl
  | cons n fs ih =>
    intro ds i hi hlen
    simp only [List.foldl_cons]
    have hlen2 : (fillNode n map ds).length = map.length := by
      rw [fillNode_length]; exact hlen
    rw [ih (fillNode n map ds) i hi hlen2]
    have hinit : lastFill (n :: fs) (map.getD i mapDflt).elementName =
        match lastFill fs (map.getD i mapDflt).elementName with
        | some c => some c
        | none => lastFillStep (map.getD i mapDflt).elementName none n := by
      unfold lastFill
      simp only [List.foldl_cons]
      exact foldl_lastFillStep_init _ fs _
    rw [hinit]
    cases hlf : lastFill fs (map.getD i mapDflt).elementName with
    | some c => rfl
    | none =>
      unfold lastFillStep
      by_cases h : n.name = (map.getD i mapDflt).elementName
      · simp only [if_pos h]
        have h2 := fillNode_getD_eq n map ds i hnd h.symm hi hlen
        cases hc : n.content with
        | none => simp only [hc] at h2; simpa using h2
        | some c => simp only [hc] at h2; simpa using h2
      · simp only [if_neg h]
        exact fillNode_getD_ne n map ds i (fun hh => h hh.symm) hi

theorem fillAttrs_nil (attrs : List (String × String)) (ds : List String) :
    fillAttrs attrs [] ds = ds := by
  cases ds <;> rfl

theorem fillAttrs_cons_nil (attrs : List (String × String)) (e : MapEntry)
    (map : List MapEntry) : fillAttrs attrs (e :: map) [] = [] := rfl

theorem fillAttrs_cons_cons (attrs : List (String × String)) (e : MapEntry)
    (map : List MapEntry) (d : String) (ds : List String) :
    fillAttrs attrs (e :: map) (d :: ds) =
      (match lookupAttr attrs e.elementName with
       | some v => strlcpy v e.destSize
       | none => d) :: fillAttrs attrs map ds := rfl

theorem fillAttrs_getD (attrs : List (String × String)) :
    ∀ (map : List MapEntry) (ds : List String) (i : Nat), i < map.length →
      ds.length = map.length →
      (fillAttrs attrs map ds).getD i "" =
        match lookupAttr attrs (map.getD i mapDflt).elementName with
        | some v => strlcpy v (map.getD i mapDflt).destSize
        | none => ds.getD i "" := by
  intro map
  induction map with
  | nil => intro ds i hi _; simp at hi
  | cons e map ih =>
    intro ds i hi hlen
    cases ds with
    | nil => simp at hlen
    | cons d ds =>
      rw [fillAttrs_cons_cons]
      cases i with
      | zero => simp
      | succ i =>
        simp only [List.getD_cons_succ]
        exact ih ds i (by simpa using Nat.lt_of_succ_lt_succ hi)
          (by simpa using hlen)

theorem fillAttrs_length (attrs : List (String × String)) :
    ∀ (map : List MapEntry) (ds : List String),
      (fillAttrs attrs map ds).length = ds.length := by
  intro map
  induction map with
  | nil => intro ds; rw [fillAttrs_nil]
  | cons e map ih =>
    intro ds
    cases ds with
    | nil => rw [fillAttrs_cons_nil]
    | cons d ds =>
      rw [fillAttrs_cons_cons]
      simp only [List.length_cons, ih]

theorem map_const_empty {α : Type} (l : List α) :
    l.map (fun _ => "") = List.replicate l.length "" := by
  induction l with
  | nil => rfl
  | cons a l ih =>
    simp only [List.map_cons, List.length_cons, List.replicate_succ, ih]

theorem getD_map_empty {α : Type} (l : List α) (i : Nat) :
    (l.map (fun _ => "")).getD i "" = "" := by
  induction l generalizing i with
  | nil => rfl
  | cons a l ih =>
    cases i with
    | zero => rfl
    | succ i => simp only [List.map_cons, List.getD_cons_succ, ih i]

theorem strlcpy_length (c : String) (n : Nat) :
    (strlcpy c n).length = min (n - 1) c.length := by
  rw [strlcpy, String.length, List.length_take]
  rfl

theorem fillFromXML_true (attrs : List (String × String)) (fields : List XField)
    (map : List MapEntry) (dests : List String) :
    fillFromXML true attrs fields map dests =
      fillAttrs attrs map (dests.map (fun _ => "")) := rfl

theorem fillFromXML_false (attrs : List (String × String))
    (fields : List XField) (map : List MapEntry) (dests : List String) :
    fillFromXML false attrs fields map dests =
      fields.foldl (fun ds n => fillNode n map ds)
        (dests.map (fun _ => "")) := rfl

/-- The claim's contract of the field extractor, for mappings whose
capacities are all at least 1 (and, as at every call site, pairwise distinct
source names): the result has one destination per mapping; every destination
stays strictly below its capacity; a destination holds the (truncated) text
of its present source — the matching attribute, or the last matching child
with content — and is empty when no source matches; and nothing of the
previous destination contents survives. -/
theorem fillFromXML_contract (attrMode : Bool) (attrs : List (String × String))
    (fields : List XField) (map : List MapEntry) (dests : List String)
    (hcap : ∀ e ∈ map, 1 ≤ e.destSize)
    (hnd : (map.map MapEntry.elementName).Nodup)
    (hlen : dests.length = map.length) :
    (fillFromXML attrMode attrs fields map dests).length = map.length ∧
    (∀ i, i < map.length →
      ((fillFromXML attrMode attrs fields map dests).getD i "").length + 1 ≤
        (map.getD i mapDflt).destSize) ∧
    (∀ i, i < map.length →
      (fillFromXML attrMode attrs fields map dests).getD i "" =
        if attrMode then
          match lookupAttr attrs (map.getD i mapDflt).elementName with
          | some v => strlcpy v (map.getD i mapDflt).destSize
          | none => ""
        else
          match lastFill fields (map.getD i mapDflt).elementName with
          | some c => strlcpy c (map.getD i mapDflt).destSize
          | none => "") ∧
    (∀ dests2 : List String, dests2.length = map.length →
      fillFromXML attrMode attrs fields map dests2 =
        fillFromXML attrMode attrs fields map dests) := by
  have hds0len : (dests.map (fun _ => "")).length = map.length := by
    simp [hlen]
  have hchar : ∀ i, i < map.length →
      (fillFromXML attrMode attrs fields map dests).getD i "" =
        if attrMode then
          match lookupAttr attrs (map.getD i mapDflt).elementName with
          | some v => strlcpy v (map.getD i mapDflt).destSize
          | none => ""
        else
          match lastFill fields (map.getD i mapDflt).elementName with
          | some c => strlcpy c (map.getD i mapDflt).destSize
          | none => "" := by
    intro i hi
    cases attrMode with
    | true =>
      rw [fillFromXML_true, if_pos rfl,
        fillAttrs_getD attrs map _ i hi hds0len, getD_map_empty]
    | false =>
      rw [fillFromXML_false, if_neg (by simp),
        foldl_fillNode_getD map hnd fields _ i hi hds0len, getD_map_empty]
  refine ⟨?_, ?_, hchar, ?_⟩
  · cases attrMode with
    | true => rw [fillFromXML_true, fillAttrs_length, hds0len]
    | false => rw [fillFromXML_false, foldl_fillNode_length, hds0len]
  · intro i hi
    rw [hchar i hi]
    have hcap2 : 1 ≤ (map.getD i mapDflt).destSize :=
      hcap _ (getD_mem_of_lt hi)
    cases attrMode with
    | true =>
      rw [if_pos rfl]
      cases lookupAttr attrs (map.getD i mapDflt).elementName with
      | none => simpa using hcap2
      | some v => simp only [strlcpy_length]; omega
    | false =>
      rw [if_neg (by simp)]
      cases lastFill fields (map.getD i mapDflt).elementName with
      | none => simpa using hcap2
      | some c => simp only [strlcpy_length]; omega
  · intro dests2 hlen2
    cases attrMode with
    | true =>
      rw [fillFromXML_true, fillFromXML_true, map_const_empty dests2,
        map_const_empty dests, hlen, hlen2]
    | false =>
      rw [fillFromXML_false, fillFromXML_false, map_const_empty dests2,
        map_const_empty dests, hlen, hlen2]

/-- Witness for the field-extractor contract at a concrete call: one mapping
matched by a child whose text is longer than the capacity, one unmatched, and
stale destination contents that must vanish. -/
theorem fillFromXML_contract_witness :
    (fillFromXML false [] [⟨"a", some "xyz"⟩] [⟨"a", 3⟩, ⟨"b", 2⟩]
      ["resid", "ue"]).getD 0 "" = "xy" ∧
    (fillFromXML false [] [⟨"a", some "xyz"⟩] [⟨"a", 3⟩, ⟨"b", 2⟩]
      ["resid", "ue"]).getD 1 "" = "" := by
  have T := fillFromXML_contract false [] [⟨"a", some "xyz"⟩]
    [⟨"a", 3⟩, ⟨"b", 2⟩] ["resid", "ue"] (by decide) (by decide) (by decide)
  refine ⟨?_, ?_⟩
  · rw [T.2.2.1 0 (by decide)]; decide
  · rw [T.2.2.1 1 (by decide)]; decide

/-- An all-empty device record. -/
def devNull : RokuDevice :=
  ⟨"", "", "", "", "", false, false, false, false, false, false, false,
   "", "", ""⟩

/-- A device-info document whose ecp-setting-mode text is exactly "limited"
and whose is-tv text is "true". -/
def docLimited : XmlRoot :=
  ⟨[⟨true, "ecp-setting-mode", some "limited", [], []⟩,
    ⟨true, "is-tv", some "true", [], []⟩]⟩

/-- A transport that answers every request with HTTP 200 and docLimited. -/
def netLimited : Net := fun _ => ⟨0, some (some docLimited), []⟩

/-- On every path of getRokuDevice the returned record either has
isLimited = false (any accepted document: the comparison on line 245 reads
the 5-byte is-tv staging buffer, which can never hold the 7-character word
"limited") or is the untouched input record with only its url replaced (any
failure path). -/
theorem getRokuDevice_isLimited_aux (net : Net) (url : String)
    (d0 : RokuDevice) :
    (getRokuDevice net url d0).2.2.isLimited = false ∨
    (getRokuDevice net url d0).2.2 = { d0 with url := strlcpy url 30 } := by
  have key : ∀ (root : XmlRoot) (dests : List String),
      dests.length = deviceInfoMap.length →
      (fillFromXML false [] root.fieldsOf deviceInfoMap dests).getD 8 "" ≠
        "limited" := by
    intro root dests hlen heq
    have T := fillFromXML_contract false [] root.fieldsOf deviceInfoMap dests
      (by decide) (by decide) hlen
    have hb := T.2.1 8 (by decide)
    rw [heq] at hb
    have hsz : (deviceInfoMap.getD 8 mapDflt).destSize = 5 := by decide
    rw [hsz] at hb
    exact absurd hb (by decide)
  simp only [getRokuDevice]
  split
  · right; rfl
  · split
    · right; rfl
    · split
      · right; rfl
      · right; rfl
      · left
        rename_i root heqd
        exact decide_eq_false (key root _ rfl)

/-- A transport that always answers 200 with an unparseable body. -/
def netZero : Net := fun _ => ⟨0, none, []⟩

/-- A transport that always fails with soup error code 7. -/
def netErr : Net := fun _ => ⟨7, none, []⟩

/-- A device in limited control mode that is not a TV. -/
def devLimitedNonTV : RokuDevice :=
  ⟨"", "", "http://roku", "", "", false, false, true, false, false, false,
   false, "", "", ""⟩

/-- A device in limited control mode that is a TV. -/
def devLimitedTV : RokuDevice :=
  ⟨"", "", "http://roku", "", "", true, false, true, false, true, false,
   false, "", "", ""⟩

/-- A plain device: no TV, not limited, with search support. -/
def devPlain : RokuDevice :=
  ⟨"", "", "http://roku", "", "", false, false, false, false, true, false,
   false, "", "", ""⟩

/-- A device record with distinctive values in every field, used to observe
which fields a call overwrites. -/
def devSeed : RokuDevice :=
  ⟨"N", "L", "U", "M", "S", true, true, true, true, true, true, true,
   "R", "A", "V"⟩

/-- Claim C1: the claim asks for isLimited = true exactly when the document's
ecp-setting-mode text is "limited", but getRokuDevice (line 245) compares the
is-tv staging buffer instead: on a document with ecp-setting-mode "limited"
and is-tv "true" the call succeeds with isLimited = false, and in general the
flag is false for every accepted document, since the 5-byte is-tv buffer can
never hold "limited". The ecp-setting-mode buffer is filled and never read. -/
theorem getRokuDevice_isLimited_misreads_is_tv :
    lastFill docLimited.fieldsOf "ecp-setting-mode" = some "limited" ∧
    (getRokuDevice netLimited "http://roku" devNull).1 = 0 ∧
    (getRokuDevice netLimited "http://roku" devNull).2.2.isLimited = false ∧
    (∀ (net : Net) (url : String) (d0 : RokuDevice),
      (getRokuDevice net url d0).2.2.isLimited = false ∨
      (getRokuDevice net url d0).2.2 = { d0 with url := strlcpy url 30 }) :=
  ⟨by decide, by decide, by decide, getRokuDevice_isLimited_aux⟩

/-- Claim C10: getRokuDevice overwrites the record's url field with the
truncated input URL on every path, and on every failure return every other
field of the record is exactly what it was before the call. -/
theorem getRokuDevice_failure_writes_only_url (net : Net) (url : String)
    (d0 : RokuDevice) :
    (getRokuDevice net url d0).2.2.url = strlcpy url 30 ∧
    ((getRokuDevice net url d0).1 ≠ 0 →
      (getRokuDevice net url d0).2.2 = { d0 with url := strlcpy url 30 }) := by
  simp only [getRokuDevice]
  split
  · exact ⟨rfl, fun _ => rfl⟩
  · split
    · exact ⟨rfl, fun _ => rfl⟩
    · split
      · exact ⟨rfl, fun _ => rfl⟩
      · exact ⟨rfl, fun _ => rfl⟩
      · exact ⟨rfl, fun h => absurd rfl h⟩

/-- Witness for C10 at a failing transport: the seeded record keeps every
field except url. -/
theorem getRokuDevice_failure_writes_only_url_witness :
    (getRokuDevice netErr "http://a" devSeed).2.2 =
      { devSeed with url := strlcpy "http://a" 30 } :=
  (getRokuDevice_failure_writes_only_url netErr "http://a" devSeed).2
    (by decide)

/-- Counterexample to claim C5: on a limited non-TV device and the ordinary
key "Home" (not in the TV-only list) rokuSendKey does not POST at all — it
returns the limited-mode code -2 with no request, where the claim requires a
POST to /keypress/Home. -/
theorem rokuSendKey_limited_no_post :
    rokuSendKey netZero devLimitedNonTV "Home" = (-2, []) ∧
    (rokuSendKey netZero devLimitedNonTV "Home").2 ≠
      [⟨"POST", devLimitedNonTV.url ++ "/keypress/" ++ "Home"⟩] := by decide

/-- Claim C5 as amended: a TV-only key on a non-TV device returns -1 with no
request; any other key is POSTed to /keypress/key provided the device is not
in limited mode (a limited device gets -2 with no request, per C2). -/
theorem rokuSendKey_contract (net : Net) (device : RokuDevice) (key : String) :
    (device.isTV = false → key ∈ tvOnlyKeys →
      rokuSendKey net device key = (-1, [])) ∧
    (device.isLimited = false → (device.isTV = true ∨ key ∉ tvOnlyKeys) →
      (rokuSendKey net device key).2 =
        [⟨"POST", device.url ++ "/keypress/" ++ key⟩]) := by
  constructor
  · intro h1 h2
    simp [rokuSendKey, h1, h2]
  · intro h1 h2
    have hcond : ¬(device.isTV = false ∧ key ∈ tvOnlyKeys) := by
      rcases h2 with h | h
      · simp [h]
      · intro hc; exact h hc.2
    simp [rokuSendKey, hcond, h1]

/-- Witness for C5: PowerOff on a non-TV device is rejected with -1; Home on a
plain device is POSTed. -/
theorem rokuSendKey_contract_witness :
    rokuSendKey netZero devLimitedNonTV "PowerOff" = (-1, []) ∧
    (rokuSendKey netZero devPlain "Home").2 =
      [⟨"POST", "http://roku/keypress/Home"⟩] := by
  constructor
  · exact (rokuSendKey_contract netZero devLimitedNonTV "PowerOff").1 rfl
      (by decide)
  · rw [(rokuSendKey_contract netZero devPlain "Home").2 rfl
      (Or.inr (by decide))]
    decide

/-- Counterexample to claim C2: a device with isLimited = true that is not a
TV gets the not-a-TV code -4 from getRokuTVChannels, not its documented
limited-mode code -5, because the TV check runs first (still with no network
request). -/
theorem getRokuTVChannels_limited_nonTV_code :
    (getRokuTVChannels netZero devLimitedNonTV 5 []).1 = -4 ∧
    (getRokuTVChannels netZero devLimitedNonTV 5 []).1 ≠ -5 ∧
    (getRokuTVChannels netZero devLimitedNonTV 5 []).2.1 = [] := by decide

/-- Claim C2 as amended: every operation in the list rejects a limited device
locally, with no network request and with its inputs untouched; the two
TV-channel queries return their limited-mode codes (-5 and -4) when the
device is a TV and their not-a-TV codes (-4 and -3) otherwise, and the other
operations return their documented limited-mode codes (-4 for the app list,
-1 for icon, search, custom input and text typing). -/
theorem limited_device_rejects_locally (net : Net) (device : RokuDevice)
    (hlim : device.isLimited = true) (maxC maxA : Int)
    (chans : List RokuTVChannel) (ch0 : RokuExtTVChannel)
    (apps : List RokuApp) (app : RokuApp) (icon0 : RokuAppIcon) (kw : String)
    (sp : RokuSearchParams) (np : Nat) (names values : List String)
    (encode : Char → Option (List Nat)) (s : String) :
    getRokuTVChannels net device maxC chans =
      ((if device.isTV then -5 else -4), [], chans) ∧
    getActiveRokuTVChannel net device ch0 =
      ((if device.isTV then -4 else -3), [], ch0) ∧
    getRokuApps net device maxA apps = (-4, [], apps) ∧
    getRokuAppIcon net device app icon0 = (-1, [], icon0) ∧
    rokuSearch net device kw sp = (-1, []) ∧
    sendCustomRokuInput net device np names values = (-1, []) ∧
    rokuTypeString net encode device s = (-1, []) := by
  refine ⟨?_, ?_, ?_, ?_, ?_, ?_, ?_⟩
  · cases htv : device.isTV <;> simp [getRokuTVChannels, hlim, htv]
  · cases htv : device.isTV <;> simp [getActiveRokuTVChannel, hlim, htv]
  · simp [getRokuApps, hlim]
  · simp [getRokuAppIcon, hlim]
  · simp [rokuSearch, hlim]
  · simp [sendCustomRokuInput, hlim]
  · simp [rokuTypeString, hlim]

/-- Witness for C2 on a limited TV and a limited non-TV device. -/
theorem limited_device_rejects_locally_witness :
    getRokuTVChannels netZero devLimitedTV 5 [] = (-5, [], []) ∧
    getRokuTVChannels netZero devLimitedNonTV 5 [] = (-4, [], []) ∧
    rokuSearch netZero devLimitedTV "Friends"
      ⟨.SHOW, false, "", 0, false, false, []⟩ = (-1, []) ∧
    rokuTypeString netZero asciiEncode devLimitedTV "Hi" = (-1, []) := by
  have h1 := limited_device_rejects_locally netZero devLimitedTV rfl 5 5 []
    ⟨⟨"", "", "", "", 0, 0⟩, false, ⟨"", "", "", false⟩, false, "", 0, 0⟩ []
    ⟨"", "", "", ""⟩ ⟨[], 0⟩ "Friends" ⟨.SHOW, false, "", 0, false, false, []⟩
    0 [] [] asciiEncode "Hi"
  have h2 := limited_device_rejects_locally netZero devLimitedNonTV rfl 5 5 []
    ⟨⟨"", "", "", "", 0, 0⟩, false, ⟨"", "", "", false⟩, false, "", 0, 0⟩ []
    ⟨"", "", "", ""⟩ ⟨[], 0⟩ "Friends" ⟨.SHOW, false, "", 0, false, false, []⟩
    0 [] [] asciiEncode "Hi"
  refine ⟨?_, ?_, ?_, ?_⟩
  · rw [h1.1]; decide
  · rw [h2.1]; decide
  · exact h1.2.2.2.2.1
  · exact h1.2.2.2.2.2.2

/-- Claim C4: the count and the found prefix behave as claimed (second
conjunct: three of five arrivals with maxDevices = 3), but the remaining
slots are NOT cleared — with one location found and maxDevices = 3, slots 1
and 2 still hold their previous contents, where the claim (and the function's
own documentation) require empty strings. -/
theorem findRokuDevices_stale_slots :
    findRokuDevices none ["http://192.168.1.20:8060/"] 3 30
      ["stale0", "stale1", "stale2"] =
      (1, ["http://192.168.1.20:8060/", "stale1", "stale2"]) ∧
    (findRokuDevices none ["http://192.168.1.20:8060/"] 3 30
      ["stale0", "stale1", "stale2"]).2.getD 1 "" ≠ "" ∧
    findRokuDevices none ["u1", "u2", "u3", "u4", "u5"] 3 30
      ["a", "b", "c"] = (3, ["u1", "u2", "u3"]) := by decide

/-- Search parameters that are all default except the filter type SHOW. -/
def spShow : RokuSearchParams :=
  ⟨.SHOW, false, "", 0, false, false, ["", "", "", "", "", "", "", ""]⟩

/-- Claim C6: on a search-capable, non-limited device an empty keyword gets
the local code -2 with no request, and keyword "Friends" with filter SHOW
produces one POST whose query string is keyword=Friends&type=tv-show (in
particular the URL contains that text). -/
theorem rokuSearch_keyword_contract (net : Net) (device : RokuDevice)
    (hs : device.hasSearchSupport = true) (hl : device.isLimited = false) :
    (∀ sp : RokuSearchParams, rokuSearch net device "" sp = (-2, [])) ∧
    (rokuSearch net device "Friends" spShow).2 =
      [⟨"POST", device.url ++ "/search/browse?" ++
        "keyword=Friends&type=tv-show"⟩] ∧
    (∃ pre suf : String, (rokuSearch net device "Friends" spShow).2 =
      [⟨"POST", pre ++ "keyword=Friends&type=tv-show" ++ suf⟩]) := by
  have hcond : ¬(device.hasSearchSupport = false ∨ device.isLimited = true) := by
    rw [hs, hl]; simp
  have hmain : (rokuSearch net device "Friends" spShow).2 =
      [⟨"POST", device.url ++ "/search/browse?" ++
        "keyword=Friends&type=tv-show"⟩] := by
    simp only [rokuSearch, hcond, if_false, if_neg hcond]
    rw [if_neg (by decide : ¬("Friends" = ""))]
    have hesc : uriEscape "Friends" = "Friends" := by decide
    simp only [hesc, spShow, searchTypeString, providerTail]
    simp only [String.append_assoc]
    simp
  refine ⟨?_, hmain, ⟨device.url ++ "/search/browse?", "", by
    rw [hmain, String.append_empty]⟩⟩
  intro sp
  simp only [rokuSearch, if_neg hcond]
  simp

/-- Witness for C6 on a concrete search-capable, non-limited device. -/
theorem rokuSearch_keyword_contract_witness :
    rokuSearch netZero devPlain "" spShow = (-2, []) ∧
    (rokuSearch netZero devPlain "Friends" spShow).2 =
      [⟨"POST", "http://roku/search/browse?keyword=Friends&type=tv-show"⟩] := by
  have T := rokuSearch_keyword_contract netZero devPlain rfl rfl
  refine ⟨T.1 spShow, ?_⟩
  rw [T.2.1]
  decide

/-- Every call of getActiveRokuTVChannel either fails (nonzero result) or
returns 0 with the output produced by activeChannelFill on some channel
element. -/
theorem getActiveRokuTVChannel_cases (net : Net) (device : RokuDevice)
    (ch0 : RokuExtTVChannel) :
    (getActiveRokuTVChannel net device ch0).1 ≠ 0 ∨
    ∃ chEl : XmlNodeL, getActiveRokuTVChannel net device ch0 =
      (0, [⟨"GET", device.url ++ "/query/tv-active-channel"⟩],
       activeChannelFill chEl ch0) := by
  simp only [getActiveRokuTVChannel]
  split
  · exact Or.inl (fun h => absurd h (by decide : ¬((-3 : Int) = 0)))
  · split
    · exact Or.inl (fun h => absurd h (by decide : ¬((-4 : Int) = 0)))
    · split
      · exact Or.inl (fun h => absurd h (by decide : ¬((-5 : Int) = 0)))
      · split
        · rename_i hne
          exact Or.inl (fun h => hne h)
        · split
          · exact Or.inl (fun h => absurd h (by decide : ¬((-1 : Int) = 0)))
          · exact Or.inl (fun h => absurd h (by decide : ¬((-2 : Int) = 0)))
          · split
            · exact Or.inl (fun h => absurd h (by decide : ¬((-2 : Int) = 0)))
            · split
              · exact Or.inl (fun h => absurd h (by decide : ¬((-2 : Int) = 0)))
              · rename_i chEl heq
                exact Or.inr ⟨chEl, rfl⟩

/-- Claim C7: whenever getActiveRokuTVChannel returns 0 and the output's
isActive flag is false, every program field, the signal flags and numbers and
the resolution label are their zero values, whatever the document held. -/
theorem getActiveRokuTVChannel_inactive_zeroed (net : Net)
    (device : RokuDevice) (ch0 : RokuExtTVChannel) :
    (getActiveRokuTVChannel net device ch0).1 = 0 →
    (getActiveRokuTVChannel net device ch0).2.2.isActive = false →
    (getActiveRokuTVChannel net device ch0).2.2.program =
        ⟨"", "", "", false⟩ ∧
      (getActiveRokuTVChannel net device ch0).2.2.signalReceived = false ∧
      (getActiveRokuTVChannel net device ch0).2.2.resolution = "" ∧
      (getActiveRokuTVChannel net device ch0).2.2.signalQuality = 0 ∧
      (getActiveRokuTVChannel net device ch0).2.2.signalStrength = 0 := by
  intro h0 hinact
  rcases getActiveRokuTVChannel_cases net device ch0 with h | ⟨chEl, heq⟩
  · exact absurd h0 h
  · rw [heq] at hinact ⊢
    simp only [activeChannelFill] at hinact ⊢
    split at hinact
    · exact absurd hinact (by decide : ¬(true = false))
    · rename_i hc
      rw [if_neg hc]
      exact ⟨rfl, rfl, rfl, rfl, rfl⟩

/-- A TV device that is not limited, with search support. -/
def devTV : RokuDevice :=
  ⟨"", "", "http://roku", "", "", true, false, false, false, true, false,
   false, "", "", ""⟩

/-- An active-channel document whose channel is inactive but carries stray
program and signal data. -/
def docInactive : XmlRoot :=
  ⟨[⟨true, "channel", none, [],
     [⟨"channel-id", some "9.1"⟩, ⟨"active-input", some "false"⟩,
      ⟨"program-title", some "Stray"⟩, ⟨"signal-quality", some "88"⟩]⟩]⟩

/-- A transport that answers 200 with docInactive. -/
def netInactive : Net := fun _ => ⟨0, some (some docInactive), []⟩

/-- An extended-channel record with residue in every field. -/
def chSeed : RokuExtTVChannel :=
  ⟨⟨"1", "2", "3", "4", 5, 6⟩, true, ⟨"T", "D", "R", true⟩, true, "720p", 7,
   -8⟩

/-- Witness for C7: an inactive channel document with stray program data,
decoded into a record that previously held non-zero values. -/
theorem getActiveRokuTVChannel_inactive_zeroed_witness :
    (getActiveRokuTVChannel netInactive devTV chSeed).2.2.program =
        ⟨"", "", "", false⟩ ∧
      (getActiveRokuTVChannel netInactive devTV chSeed).2.2.signalReceived =
        false ∧
      (getActiveRokuTVChannel netInactive devTV chSeed).2.2.resolution = "" ∧
      (getActiveRokuTVChannel netInactive devTV chSeed).2.2.signalQuality =
        0 ∧
      (getActiveRokuTVChannel netInactive devTV chSeed).2.2.signalStrength =
        0 :=
  getActiveRokuTVChannel_inactive_zeroed netInactive devTV chSeed (by decide)
    (by decide)

/-- Behaviour of rokuSendKey on a non-limited device for a key outside the
TV-only list: one POST to /keypress/key, 401 mapped to -3. -/
theorem rokuSendKey_plain (net : Net) (device : RokuDevice)
    (hl : device.isLimited = false) (key : String) (hk : key ∉ tvOnlyKeys) :
    rokuSendKey net device key =
      ((if (net ⟨"POST", device.url ++ "/keypress/" ++ key⟩).code = 401
          then -3
          else (net ⟨"POST", device.url ++ "/keypress/" ++ key⟩).code),
       [⟨"POST", device.url ++ "/keypress/" ++ key⟩]) := by
  have hcond : ¬(device.isTV = false ∧ key ∈ tvOnlyKeys) := fun h => hk h.2
  simp [rokuSendKey, hcond, hl]

/-- Characters the locale cannot represent are skipped by the typing loop
without any effect on the result or the requests. -/
theorem typeLoop_skip (net : Net) (encode : Char → Option (List Nat))
    (device : RokuDevice) (c : Char) (hc : encode c = none) :
    ∀ (s1 s2 : List Char) (ec : Int),
      typeLoop net encode device (s1 ++ c :: s2) ec =
        typeLoop net encode device (s1 ++ s2) ec := by
  intro s1
  induction s1 with
  | nil =>
    intro s2 ec
    simp only [List.nil_append, typeLoop, hc]
  | cons a s1 ih =>
    intro s2 ec
    simp only [List.cons_append, typeLoop]
    cases henc : encode a with
    | none => exact ih s2 ec
    | some bytes =>
      simp only [List.append_eq]
      split
      · rfl
      · rw [ih s2]

/-- Step equation of the typing loop on a representable character. -/
theorem typeLoop_cons_some (net : Net) (encode : Char → Option (List Nat))
    (device : RokuDevice) (c : Char) (bytes : List Nat)
    (hc : encode c = some bytes) (rest : List Char) (ec : Int) :
    typeLoop net encode device (c :: rest) ec =
      (if (rokuSendKey net device ("Lit_" ++ uriEscapeBytes bytes)).1 = -3
       then (-2, (rokuSendKey net device ("Lit_" ++ uriEscapeBytes bytes)).2)
       else
        ((typeLoop net encode device rest
            (rokuSendKey net device ("Lit_" ++ uriEscapeBytes bytes)).1).1,
         (rokuSendKey net device ("Lit_" ++ uriEscapeBytes bytes)).2 ++
           (typeLoop net encode device rest
             (rokuSendKey net device
               ("Lit_" ++ uriEscapeBytes bytes)).1).2)) := by
  simp only [typeLoop, hc]

/-- Claim C8: typing "Hi!" on a non-limited device whose first two keypresses
succeed issues exactly the keypresses Lit_H, Lit_i, Lit_%21 in that order and
returns the (mapped) result of the third; and a character the locale cannot
encode is skipped with no trace. -/
theorem rokuTypeString_hi_sequence (net : Net) (device : RokuDevice)
    (hl : device.isLimited = false)
    (h1 : (net ⟨"POST", device.url ++ "/keypress/" ++ "Lit_H"⟩).code = 0)
    (h2 : (net ⟨"POST", device.url ++ "/keypress/" ++ "Lit_i"⟩).code = 0) :
    rokuTypeString net asciiEncode device "Hi!" =
      ((if (net ⟨"POST", device.url ++ "/keypress/" ++ "Lit_%21"⟩).code =
            401 ∨
          (net ⟨"POST", device.url ++ "/keypress/" ++ "Lit_%21"⟩).code = -3
        then -2
        else (net ⟨"POST", device.url ++ "/keypress/" ++ "Lit_%21"⟩).code),
       [⟨"POST", device.url ++ "/keypress/" ++ "Lit_H"⟩,
        ⟨"POST", device.url ++ "/keypress/" ++ "Lit_i"⟩,
        ⟨"POST", device.url ++ "/keypress/" ++ "Lit_%21"⟩]) ∧
    (∀ (encode : Char → Option (List Nat)) (c : Char) (s1 s2 : List Char),
      encode c = none →
      rokuTypeString net encode device ⟨s1 ++ c :: s2⟩ =
        rokuTypeString net encode device ⟨s1 ++ s2⟩) := by
  constructor
  · simp only [rokuTypeString, hl, Bool.false_eq_true, if_false]
    show typeLoop net asciiEncode device ['H', 'i', '!'] 0 = _
    rw [typeLoop_cons_some net asciiEncode device 'H' [72] (by decide),
      show ("Lit_" ++ uriEscapeBytes [72] : String) = "Lit_H" from by decide,
      rokuSendKey_plain net device hl "Lit_H" (by decide), h1]
    simp only [eq_false (by decide : ¬((0 : Int) = 401)), if_false,
      eq_false (by decide : ¬((0 : Int) = -3))]
    rw [typeLoop_cons_some net asciiEncode device 'i' [105] (by decide),
      show ("Lit_" ++ uriEscapeBytes [105] : String) = "Lit_i" from by decide,
      rokuSendKey_plain net device hl "Lit_i" (by decide), h2]
    simp only [eq_false (by decide : ¬((0 : Int) = 401)), if_false,
      eq_false (by decide : ¬((0 : Int) = -3))]
    rw [typeLoop_cons_some net asciiEncode device '!' [33] (by decide),
      show ("Lit_" ++ uriEscapeBytes [33] : String) = "Lit_%21" from by decide,
      rokuSendKey_plain net device hl "Lit_%21" (by decide)]
    simp only [typeLoop]
    by_cases hcA :
        (net ⟨"POST", device.url ++ "/keypress/" ++ "Lit_%21"⟩).code = 401
    · simp [hcA]
    · by_cases hcB :
          (net ⟨"POST", device.url ++ "/keypress/" ++ "Lit_%21"⟩).code = -3
      · simp [hcA, hcB]
      · simp [hcA, hcB]
  · intro encode c s1 s2 hc
    simp only [rokuTypeString, hl, Bool.false_eq_true, if_false]
    exact typeLoop_skip net encode device c hc s1 s2 0

/-- Witness for C8: a device whose keypresses all succeed types "Hi!" as the
three keys and returns 0; a non-ASCII character is skipped. -/
theorem rokuTypeString_hi_sequence_witness :
    rokuTypeString netZero asciiEncode devPlain "Hi!" =
      (0, [⟨"POST", "http://roku/keypress/Lit_H"⟩,
           ⟨"POST", "http://roku/keypress/Lit_i"⟩,
           ⟨"POST", "http://roku/keypress/Lit_%21"⟩]) ∧
    rokuTypeString netZero asciiEncode devPlain ⟨['H'] ++ '€' :: ['i']⟩ =
      rokuTypeString netZero asciiEncode devPlain ⟨['H'] ++ ['i']⟩ := by
  have T := rokuTypeString_hi_sequence netZero devPlain rfl rfl rfl
  constructor
  · rw [T.1]; decide
  · exact T.2 asciiEncode '€' ['H'] ['i'] (by decide)

/-- The frequency stored by the channel-list decode, characterized by the
document's last physical-frequency child. -/
theorem decodeChannelNode_frequency (n : XmlNodeL) (c0 : RokuTVChannel) :
    (decodeChannelNode n c0).frequency =
      match lastFill n.fields "physical-frequency" with
      | some t =>
        if strlcpy t 7 ≠ "" then strtoul10 (strlcpy t 7) * 1000 % 2 ^ 64
        else 0
      | none => 0 := by
  have T := (fillFromXML_contract false n.attrs n.fields channelMap
    [c0.id, c0.network, c0.name, c0.type, "", ""] (by decide) (by decide)
    rfl).2.2.1 5 (by decide)
  simp only [decodeChannelNode]
  rw [T]
  simp only [Bool.false_eq_true, if_false,
    show channelMap.getD 5 mapDflt = (⟨"physical-frequency", 7⟩ : MapEntry)
      from by decide]
  cases lastFill n.fields "physical-frequency" with
  | none => decide
  | some t => rfl

/-- The physical channel number stored by the channel-list decode. -/
theorem decodeChannelNode_physicalChannel (n : XmlNodeL) (c0 : RokuTVChannel) :
    (decodeChannelNode n c0).physicalChannel =
      match lastFill n.fields "physical-channel" with
      | some t =>
        if strlcpy t 3 ≠ "" then strtoul10 (strlcpy t 3) % 256 else 0
      | none => 0 := by
  have T := (fillFromXML_contract false n.attrs n.fields channelMap
    [c0.id, c0.network, c0.name, c0.type, "", ""] (by decide) (by decide)
    rfl).2.2.1 4 (by decide)
  simp only [decodeChannelNode]
  rw [T]
  simp only [Bool.false_eq_true, if_false,
    show channelMap.getD 4 mapDflt = (⟨"physical-channel", 3⟩ : MapEntry)
      from by decide]
  cases lastFill n.fields "physical-channel" with
  | none => decide
  | some t => rfl

/-- The frequency stored in the base channel of the active-channel decode. -/
theorem activeChannelFill_frequency (chEl : XmlNodeL)
    (ch0 : RokuExtTVChannel) :
    (activeChannelFill chEl ch0).channel.frequency =
      match lastFill chEl.fields "physical-frequency" with
      | some t =>
        if strlcpy t 7 ≠ "" then strtoul10 (strlcpy t 7) * 1000 % 2 ^ 64
        else 0
      | none => 0 := by
  have T := (fillFromXML_contract false chEl.attrs chEl.fields
    activeChannelMap
    [ch0.channel.id, ch0.channel.network, ch0.channel.name, ch0.channel.type,
     "", "", ""] (by decide) (by decide) rfl).2.2.1 5 (by decide)
  simp only [activeChannelFill]
  split
  · rw [T]
    simp only [Bool.false_eq_true, if_false,
      show activeChannelMap.getD 5 mapDflt =
          (⟨"physical-frequency", 7⟩ : MapEntry) from by decide]
    cases lastFill chEl.fields "physical-frequency" with
    | none => decide
    | some t => rfl
  · rw [T]
    simp only [Bool.false_eq_true, if_false,
      show activeChannelMap.getD 5 mapDflt =
          (⟨"physical-frequency", 7⟩ : MapEntry) from by decide]
    cases lastFill chEl.fields "physical-frequency" with
    | none => decide
    | some t => rfl

/-- Claim C9: the physical-frequency text (after its 6-character staging
buffer) is parsed as a decimal unsigned integer and multiplied by 1000 in
unsigned long arithmetic (modulo 2^64) — "609000" stores 609000000 — and an
absent physical-frequency or physical-channel child stores exactly zero, in
both getRokuTVChannels's per-channel decode and getActiveRokuTVChannel's
fill. -/
theorem channel_frequency_parse :
    (∀ (n : XmlNodeL) (c0 : RokuTVChannel),
      lastFill n.fields "physical-frequency" = some "609000" →
      (decodeChannelNode n c0).frequency = 609000000) ∧
    (∀ (n : XmlNodeL) (c0 : RokuTVChannel),
      lastFill n.fields "physical-frequency" = none →
      (decodeChannelNode n c0).frequency = 0) ∧
    (∀ (n : XmlNodeL) (c0 : RokuTVChannel),
      lastFill n.fields "physical-channel" = none →
      (decodeChannelNode n c0).physicalChannel = 0) ∧
    (∀ (n : XmlNodeL) (c0 : RokuTVChannel) (t : String),
      lastFill n.fields "physical-frequency" = some t →
      (decodeChannelNode n c0).frequency =
        strtoul10 (strlcpy t 7) * 1000 % 2 ^ 64) ∧
    (∀ (chEl : XmlNodeL) (ch0 : RokuExtTVChannel),
      lastFill chEl.fields "physical-frequency" = some "609000" →
      (activeChannelFill chEl ch0).channel.frequency = 609000000) ∧
    (∀ (chEl : XmlNodeL) (ch0 : RokuExtTVChannel),
      lastFill chEl.fields "physical-frequency" = none →
      (activeChannelFill chEl ch0).channel.frequency = 0) := by
  have hgen : ∀ (n : XmlNodeL) (c0 : RokuTVChannel) (t : String),
      lastFill n.fields "physical-frequency" = some t →
      (decodeChannelNode n c0).frequency =
        strtoul10 (strlcpy t 7) * 1000 % 2 ^ 64 := by
    intro n c0 t h
    rw [decodeChannelNode_frequency, h]
    show (if strlcpy t 7 ≠ "" then strtoul10 (strlcpy t 7) * 1000 % 2 ^ 64
        else 0) = _
    by_cases he : strlcpy t 7 = ""
    · rw [if_neg (fun hh => hh he), he]
      decide
    · rw [if_pos he]
  refine ⟨?_, ?_, ?_, hgen, ?_, ?_⟩
  · intro n c0 h
    rw [hgen n c0 "609000" h]
    decide
  · intro n c0 h
    rw [decodeChannelNode_frequency, h]
  · intro n c0 h
    rw [decodeChannelNode_physicalChannel, h]
  · intro chEl ch0 h
    rw [activeChannelFill_frequency, h]
    decide
  · intro chEl ch0 h
    rw [activeChannelFill_frequency, h]

/-- Witness for C9 on concrete channel elements. -/
theorem channel_frequency_parse_witness :
    (decodeChannelNode ⟨true, "channel", none, [],
        [⟨"physical-frequency", some "609000"⟩]⟩
      ⟨"", "", "", "", 0, 0⟩).frequency = 609000000 ∧
    (decodeChannelNode ⟨true, "channel", none, [], []⟩
      ⟨"", "", "", "", 0, 0⟩).frequency = 0 ∧
    (decodeChannelNode ⟨true, "channel", none, [], []⟩
      ⟨"", "", "", "", 0, 0⟩).physicalChannel = 0 ∧
    (activeChannelFill ⟨true, "channel", none, [],
        [⟨"physical-frequency", some "609000"⟩]⟩ chSeed).channel.frequency =
      609000000 :=
  ⟨channel_frequency_parse.1 _ _ (by decide),
   channel_frequency_parse.2.1 _ _ (by decide),
   channel_frequency_parse.2.2.1 _ _ (by decide),
   channel_frequency_parse.2.2.2.2.1 _ _ (by decide)⟩
